import Mathlib

/-!
Verification development for the data-preparation and loss-computation core
of the H2OEve fine-tuning pipeline.

Embedded components:
* `llm_studio/src/datasets/text_causal_language_modeling_ds.py`
  (`CustomDataset`: `_get_sample`, `_read_data`, `pad_tokens`, `encode`,
  the constructor's answer-column validation);
* `llm_studio/src/datasets/text_utils.py` (`get_tokenizer`'s mask-token-id
  resolution);
* `llm_studio/src/losses/text_dpo_modeling_losses.py`
  (`DPOLoss`/`HingeLoss`/`IPOLoss.forward` and `get_losses`, `Losses.get`).

Machine integers of the source are modelled as `Int`; tensors of token ids as
`List Int`; probabilities (compared against `np.random.random()` draws) as `ℚ`;
the loss family's floating-point tensors as lists of `ℝ`.  Python operations
that can raise at runtime (tensor slice assignment with mismatched shapes,
indexing an empty tensor) are modelled with `Option`.
-/

namespace H2OEve

/-! ### Python slice semantics

`xs[:k]` and `xs[k:]` for an `Int` index `k`, including the negative-index
convention and the `xs[-0:] = xs` corner case. -/

/-- Python `xs[:k]`: for `k ≥ 0` the first `k` elements, for `k < 0` all but
the last `-k` elements. -/
def pyTake (k : Int) (xs : List Int) : List Int :=
  xs.take (if 0 ≤ k then k.toNat else xs.length - (-k).toNat)

/-- Python `xs[k:]`: for `k ≥ 0` drop the first `k` elements, for `k < 0`
the last `-k` elements (note `xs[-0:] = xs[0:] = xs`). -/
def pyDrop (k : Int) (xs : List Int) : List Int :=
  xs.drop (if 0 ≤ k then k.toNat else xs.length - (-k).toNat)

/-- Models `t = torch.full((size,), fill); t[-len(v):] = v`.  The slice
assignment succeeds exactly when the slice `t[-len(v):]` has the same length
as `v`: for `v ≠ []` this needs `len(v) ≤ size`; for `v = []` the slice
`t[-0:]` is the whole tensor, so it needs `size = 0`. -/
def fillLast (size : Nat) (fill : Int) (v : List Int) : Option (List Int) :=
  if v.length = 0 then
    if size = 0 then some [] else none
  else if v.length ≤ size then
    some (List.replicate (size - v.length) fill ++ v)
  else none

/-! ### Tokenizer and dataset state -/

/-- The slice of the Hugging Face tokenizer interface that `CustomDataset`
uses: `tokenizer(text, add_special_tokens=False)["input_ids"]`, plus the
fixed special-token ids. -/
structure Tokenizer where
  encode : String → List Int
  eos_token_id : Int
  pad_token_id : Int

/-- The configuration fields read by `_get_sample` / `_read_data` /
`pad_tokens` (from `cfg.dataset`, `cfg.tokenizer`, `cfg.augmentation`). -/
structure DatasetCfg where
  mask_prompt_labels : Bool
  add_eos_token_to_answer : Bool
  max_length : Nat
  max_length_prompt : Nat
  max_length_answer : Nat
  skip_parent_probability : ℚ
  random_parent_probability : ℚ

/-- Dataset mode (`self.mode`), one of `train` / `validation`. -/
inductive Mode where
  | train
  | validation
deriving DecidableEq, Repr

/-- The constructed `CustomDataset` state used by `_read_data`:
the parsed prompts (`self.prompts`), the answer strings (`self.answers`),
`self.parent_ids` (`none` when the parent-id column is `"None"` or the
feature was disabled for lack of an `id` column; a missing/NaN parent id of
a row is an inner `none`), and the `id` column values from which
`self.df_id_to_idx` is built. -/
structure CustomDataset where
  cfg : DatasetCfg
  tokenizer : Tokenizer
  prompts : List String
  answers : List String
  parent_ids : Option (List (Option Int))
  ids : List Int

/-- Builds `self.df_id_to_idx = {v: k for k, v in enumerate(self.df["id"].values)}`:
maps an id value to its row index; a duplicated id keeps the last index, and
a value that is not an id maps to `none` (`dict.get` default). -/
def dfIdToIdx (ids : List Int) (v : Int) : Option Nat :=
  match ids.reverse.findIdx? (fun x => x = v) with
  | none => none
  | some j => some (ids.length - 1 - j)

/-- One step of the backward parent walk:
`self.df_id_to_idx.get(self.parent_ids[parent_idx], None)`. -/
def parentLookup (ds : CustomDataset) (idx : Nat) : Option Nat :=
  match ds.parent_ids with
  | none => none
  | some ps => (ps.getD idx none).bind (dfIdToIdx ds.ids)

/-- Models `CustomDataset.encode`: tokenize and keep the first (`truncation_side =
"right"`, `[:max_length]`) or last (`"left"`, `[-max_length:]`) tokens.
`max_length` is an `Int` because `_get_sample` passes
`cfg.tokenizer.max_length_answer - 1` when an eos token is reserved. -/
def encode (tok : Tokenizer) (text : String) (max_length : Int)
    (truncation_side : String) : List Int :=
  let ids := tok.encode text
  if truncation_side = "right" then pyTake max_length ids
  else pyDrop (-max_length) ids

/-- Models `CustomDataset._get_sample`: encode one row's prompt (left-truncated to
`max_length_prompt`) and answer (right-truncated, reserving one slot for the
eos token when `add_eos_token_to_answer`, which is then appended). -/
def _get_sample (ds : CustomDataset) (idx : Nat) : List Int × List Int :=
  let prompt := ds.prompts.getD idx ""
  let answer := ds.answers.getD idx ""
  let prompt_encodings :=
    encode ds.tokenizer prompt (ds.cfg.max_length_prompt : Int) "left"
  let max_length_answer : Int :=
    if ds.cfg.add_eos_token_to_answer then (ds.cfg.max_length_answer : Int) - 1
    else (ds.cfg.max_length_answer : Int)
  let answer_encodings := encode ds.tokenizer answer max_length_answer "right"
  let answer_encodings :=
    if ds.cfg.add_eos_token_to_answer then
      answer_encodings ++ [ds.tokenizer.eos_token_id]
    else answer_encodings
  (prompt_encodings, answer_encodings)

/-- Successive `np.random.random()` draws (a global stream, one value per
call, each in `[0, 1)`) and the value drawn by `np.random.randint(len(self))`
for random-parent injection. -/
structure RNG where
  uniforms : Nat → ℚ
  randint : Nat

/-- Models the `while (parent_idx := self.df_id_to_idx.get(...)) is not None` loop of
`_read_data`, run with explicit fuel (`none` = the loop has not terminated
within `fuel` iterations).  Returns the visited ancestor indices in visit
order (parent first, oldest last) together with the number of uniform draws
consumed.  In train mode each found ancestor costs one draw; if the draw is
below `skip_parent_probability` the walk breaks before prepending. -/
def chainLoop (parentOf : Nat → Option Nat) (isTrain : Bool)
    (skip_p : ℚ) (uniforms : Nat → ℚ) :
    Nat → Nat → Nat → Option (List Nat × Nat)
  | 0, _, _ => none
  | fuel + 1, k, cur =>
    match parentOf cur with
    | none => some ([], k)
    | some p =>
      if isTrain ∧ uniforms k < skip_p then some ([], k + 1)
      else
        match chainLoop parentOf isTrain skip_p uniforms fuel
            (if isTrain then k + 1 else k) p with
        | none => none
        | some (rest, k2) => some (p :: rest, k2)

/-- The `samples` list assembled by `_read_data` before flattening: the
ancestor chain (oldest first — repeated `samples.insert(0, ...)`), the target
row's sample last, and in train mode possibly one randomly drawn sample
prepended with probability `random_parent_probability`. -/
def buildSamples (ds : CustomDataset) (mode : Mode) (rng : RNG) (fuel : Nat)
    (idx : Nat) : Option (List (List Int × List Int)) :=
  (match ds.parent_ids with
   | none => some (([] : List Nat), 0)
   | some _ =>
     chainLoop (parentLookup ds) (mode = Mode.train)
       ds.cfg.skip_parent_probability rng.uniforms fuel 0 idx).bind
    (fun ak =>
      let chain :=
        (ak.1.reverse.map (_get_sample ds)) ++ [_get_sample ds idx]
      if mode = Mode.train ∧
          rng.uniforms ak.2 < ds.cfg.random_parent_probability then
        some (_get_sample ds rng.randint :: chain)
      else
        some chain)

/-- Computes `input_ids = torch.cat([torch.cat(sample) for sample in samples])`. -/
def flatInput (samples : List (List Int × List Int)) : List Int :=
  samples.flatMap (fun s => s.1 ++ s.2)

/-- The boolean `prompt_mask`: ones over each sample's prompt tokens, zeros
over its answer tokens, concatenated in the same order as `flatInput`. -/
def flatPromptMask (samples : List (List Int × List Int)) : List Bool :=
  samples.flatMap (fun s => s.1.map (fun _ => true) ++ s.2.map (fun _ => false))

/-- Models `labels[-1] = eos_token_id` — errors on an empty tensor. -/
def setLast (xs : List Int) (v : Int) : Option (List Int) :=
  if xs.isEmpty then none else some (xs.dropLast ++ [v])

/-- The tensor bundle returned by `_read_data` / `__getitem__`. -/
structure SampleDict where
  labels : List Int
  input_ids : List Int
  attention_mask : List Int
  prompt_input_ids : List Int
  prompt_attention_mask : List Int
deriving DecidableEq, Repr

/-- Models `CustomDataset.pad_tokens`: truncate to the trailing `max_length` tokens
when too long, then left-pad ids with `pad_token_id` and the attention mask
with zeros.  At both call sites `attention_mask` is `torch.ones_like` of
`input_ids`, so the `[-len(input_ids):]` slice of the source is the
`[-len(attention_mask):]` slice used here. -/
def pad_tokens (input_ids attention_mask : List Int) (max_length : Nat)
    (pad_token_id : Int) : Option (List Int × List Int) :=
  let ids :=
    if max_length < input_ids.length then
      pyDrop (-(max_length : Int)) input_ids
    else input_ids
  let am :=
    if max_length < attention_mask.length then
      pyDrop (-(max_length : Int)) attention_mask
    else attention_mask
  (fillLast max_length pad_token_id ids).bind (fun out_ids =>
    (fillLast max_length 0 am).map (fun out_am => (out_ids, out_am)))

/-- The label pipeline of `_read_data` (source lines 316–337): clone the flat
ids, mask prompt positions with `-100` when configured, force the last label
to the eos id when configured, truncate to the trailing `max_length` tokens
when too long, and left-fill into a `max_length`-sized `-100` tensor. -/
def labelsStage (ds : CustomDataset) (samples : List (List Int × List Int)) :
    Option (List Int) :=
  let input_ids := flatInput samples
  let prompt_mask := flatPromptMask samples
  let labels := input_ids
  let labels :=
    if ds.cfg.mask_prompt_labels then
      List.zipWith (fun m v => if m then (-100 : Int) else v) prompt_mask labels
    else labels
  (if ds.cfg.add_eos_token_to_answer then
      setLast labels ds.tokenizer.eos_token_id
    else some labels).bind
    (fun labels =>
      let labels :=
        if ds.cfg.max_length < input_ids.length then
          pyDrop (-(ds.cfg.max_length : Int)) labels
        else labels
      fillLast ds.cfg.max_length (-100) labels)

/-- The `samples` list with the last sample's answer replaced by an empty
tensor (`samples[-1][1] = torch.empty(0)`), used for the prompt-only view. -/
def promptSamples (samples : List (List Int × List Int)) :
    List (List Int × List Int) :=
  samples.dropLast ++
    (samples.getLast?.map (fun s => (s.1, ([] : List Int)))).toList

/-- The label/padding stage of `_read_data` (source lines 316–360), applied
to the assembled `samples` list. -/
def assemble (ds : CustomDataset) (samples : List (List Int × List Int)) :
    Option SampleDict :=
  let input_ids := flatInput samples
  let attention_mask := input_ids.map (fun _ => (1 : Int))
  (labelsStage ds samples).bind (fun padded_labels =>
    (pad_tokens input_ids attention_mask ds.cfg.max_length
        ds.tokenizer.pad_token_id).bind (fun out =>
      let prompt_input_ids := flatInput (promptSamples samples)
      let prompt_attention_mask := prompt_input_ids.map (fun _ => (1 : Int))
      (pad_tokens prompt_input_ids prompt_attention_mask
          ds.cfg.max_length_prompt ds.tokenizer.pad_token_id).map (fun pout =>
        { labels := padded_labels, input_ids := out.1,
          attention_mask := out.2, prompt_input_ids := pout.1,
          prompt_attention_mask := pout.2 })))

/-- Models `CustomDataset._read_data` (hence `__getitem__`): assemble the parent
chain for `idx` and produce the padded tensor bundle. -/
def _read_data (ds : CustomDataset) (mode : Mode) (rng : RNG) (fuel : Nat)
    (idx : Nat) : Option SampleDict :=
  (buildSamples ds mode rng fuel idx).bind (assemble ds)

/-! ### Constructor validation (`CustomDataset.__init__`, source lines 36–66)

The input DataFrame is modelled by its column names and, for each column,
its list of values where `none` stands for a missing value (NaN). -/

/-- The slice of the pandas DataFrame that the constructor's validation
reads: the column names and each column's values (`none` = missing). -/
structure DataFrame where
  columns : List String
  values : String → List (Option String)

/-- Models the answer-column validation of `CustomDataset.__init__` and the construction
of `self.answers`: raise `ValueError` when the answer column is absent or has
missing values (`df.shape[0] != df[[col]].dropna().shape[0]`), otherwise
return the answer strings. -/
def datasetInitAnswers (df : DataFrame) (answer_column : String) :
    Except String (List String) :=
  let has_all_columns := df.columns.contains answer_column
  let has_missing_values :=
    has_all_columns && (df.values answer_column).any (fun v => v.isNone)
  if !has_all_columns || has_missing_values then
    Except.error
      (if has_missing_values then "column contains missing values"
       else "does not contain the required column")
  else
    -- post-check every value is present; `astype(str)` of a present value
    Except.ok ((df.values answer_column).map (fun v => v.getD ""))

/-! ### Mask-token-id resolution (`get_tokenizer`, text_utils.py lines 50–59) -/

/-- The special-token ids of a Hugging Face tokenizer as `get_tokenizer`
sees them after the pad-token default was applied, plus `len(tokenizer)`. -/
structure HFTokenizer where
  unk_token_id : Option Int
  mask_token_id : Option Int
  pad_token_id : Option Int
  vocab_size : Nat

/-- Models the `cfg._tokenizer_mask_token_id` resolution of `get_tokenizer`,
transcribed branch by branch from the source:
`if unk_token_id is not None: ... elif mask_token_id is not None: ...
elif mask_token_id is not None: cfg._tokenizer_mask_token_id = pad_token_id
else: len(tokenizer) - 1`.  Note the third branch repeats the second
branch's condition (it does not test `pad_token_id`). -/
def resolveMaskTokenId (tok : HFTokenizer) : Option Int :=
  if tok.unk_token_id.isSome then tok.unk_token_id
  else if tok.mask_token_id.isSome then tok.mask_token_id
  else if tok.mask_token_id.isSome then tok.pad_token_id
  else some ((tok.vocab_size : Int) - 1)

/-! ### The DPO loss family (`text_dpo_modeling_losses.py`) -/

/-- Models `F.logsigmoid x = Real.log (sigmoid x)` where
`sigmoid x = 1 / (1 + exp (-x))`. -/
noncomputable def logsigmoid (x : ℝ) : ℝ :=
  Real.log (1 / (1 + Real.exp (-x)))

/-- Models `tensor.mean()`: unweighted arithmetic mean over the batch dimension. -/
noncomputable def tmean (xs : List ℝ) : ℝ := xs.sum / xs.length

/-- The three registered loss classes. -/
inductive LossKind where
  | DPOLoss
  | HingeLoss
  | IPOLoss
deriving DecidableEq, Repr

/-- Models `DPOLoss.get_losses`: `-logsigmoid(beta*logits)*(1-s) -
logsigmoid(-beta*logits)*s` with the label smoothing `s` hardcoded to 0;
`HingeLoss.get_losses`: `relu(1 - beta*logits)`;
`IPOLoss.get_losses`: `(logits - 1/(2*beta))**2`. -/
noncomputable def get_losses (kind : LossKind) (beta : ℝ) (logits : ℝ) : ℝ :=
  match kind with
  | LossKind.DPOLoss =>
    let label_smoothing : ℝ := 0
    (-logsigmoid (beta * logits) * (1 - label_smoothing)
      - logsigmoid (-(beta * logits)) * label_smoothing)
  | LossKind.HingeLoss => max 0 (1 - beta * logits)
  | LossKind.IPOLoss => (logits - 1 / (2 * beta)) ^ 2

/-- Models `DPOLoss.forward` (shared by all variants): the elementwise logits
`(pc - pr) - (rc - rr)`, the variant per-example losses, and the mean loss
with the mean detached chosen/rejected rewards. -/
noncomputable def dpoForward (kind : LossKind) (beta : ℝ)
    (pc pr rc rr : List ℝ) : ℝ × ℝ × ℝ :=
  let pi_logratios := List.zipWith (fun a b => a - b) pc pr
  let ref_logratios := List.zipWith (fun a b => a - b) rc rr
  let logits := List.zipWith (fun a b => a - b) pi_logratios ref_logratios
  let losses := logits.map (get_losses kind beta)
  let chosen_rewards := (List.zipWith (fun a b => a - b) pc rc).map (beta * ·)
  let rejected_rewards := (List.zipWith (fun a b => a - b) pr rr).map (beta * ·)
  (tmean losses, tmean chosen_rewards, tmean rejected_rewards)

/-- The `Losses._losses` registry, as an association list in source order. -/
def lossesRegistry : List (String × LossKind) :=
  [("DPOLoss", LossKind.DPOLoss),
   ("HingeLoss", LossKind.HingeLoss),
   ("IPOLoss", LossKind.IPOLoss)]

/-- Models `Losses.get(name)`: `cls._losses.get(name, DPOLoss)` — the registered
class for a registered name, the default `DPOLoss` otherwise. -/
def Losses.get (name : String) : LossKind :=
  (lossesRegistry.lookup name).getD LossKind.DPOLoss

/-! ### Claim-side helpers and concrete instances -/

/-- Iterates `n` steps of the backward parent map (`some` = the walk is still at a
row after `n` parent lookups, `none` = a lookup failed within `n` steps). -/
def stepN (f : Nat → Option Nat) : Nat → Nat → Option Nat
  | 0, i => some i
  | n + 1, i => (f i).bind (stepN f n)

/-- The claim's `encode(X)`: row `X`'s prompt ids followed by its answer ids,
as produced by `_get_sample`. -/
def encodeRow (ds : CustomDataset) (i : Nat) : List Int :=
  (_get_sample ds i).1 ++ (_get_sample ds i).2

/-- A three-row dataset A/B/C with ids 10/20/30 where B's parent is A and
C's parent is B (claim C1's configuration). -/
def dsChain (tok : Tokenizer) (cfg : DatasetCfg) (pA pB pC aA aB aC : String) :
    CustomDataset :=
  { cfg := cfg, tokenizer := tok, prompts := [pA, pB, pC],
    answers := [aA, aB, aC], parent_ids := some [none, some 10, some 20],
    ids := [10, 20, 30] }

/-- Concrete tokenizer for witnesses: one token per character (its code
point), eos id 5, pad id 0. -/
def tokW : Tokenizer :=
  { encode := fun s => s.data.map (fun c => (c.toNat : Int)),
    eos_token_id := 5, pad_token_id := 0 }

/-- Concrete config for witnesses: masking and eos enabled, `max_length` 4,
`max_length_prompt` 3, `max_length_answer` 2, both probabilities 0. -/
def cfgW : DatasetCfg :=
  { mask_prompt_labels := true, add_eos_token_to_answer := true,
    max_length := 4, max_length_prompt := 3, max_length_answer := 2,
    skip_parent_probability := 0, random_parent_probability := 0 }

/-- Concrete single-row dataset for witnesses: prompt `"a"`, answer `"b"`,
no parent chaining. -/
def dsW : CustomDataset :=
  { cfg := cfgW, tokenizer := tokW, prompts := ["a"], answers := ["b"],
    parent_ids := none, ids := [] }

/-- Concrete random source for witnesses: every uniform draw is 0. -/
def rngW : RNG := { uniforms := fun _ => 0, randint := 0 }

/-- The item `_read_data` produces for `dsW` at index 0. -/
def sdW : SampleDict :=
  { labels := [-100, -100, 98, 5], input_ids := [0, 97, 98, 5],
    attention_mask := [0, 1, 1, 1], prompt_input_ids := [0, 0, 97],
    prompt_attention_mask := [0, 0, 1] }

/-- The samples list `buildSamples` produces for `dsW` at index 0. -/
def samplesW : List (List Int × List Int) := [([97], [98, 5])]

/-- Concrete three-row chain dataset (ids 10/20/30) for the C1 witness. -/
def dsC1W : CustomDataset := dsChain tokW cfgW "pa" "pb" "pc" "x" "y" "z"

/-- A finite acyclic parent map: 0 has no parent, `i + 1`'s parent is `i`. -/
def parentAcyclicW : Nat → Option Nat :=
  fun i => if i = 0 then none else some (i - 1)

/-- A self-referential parent map: every row is its own parent. -/
def parentCyclicW : Nat → Option Nat := fun i => some i

/-- A two-column DataFrame with a complete `"answer"` column. -/
def dfW : DataFrame :=
  { columns := ["prompt", "answer"],
    values := fun c => if c = "answer" then [some "x", some "y"] else [] }

/-- A one-row dataset whose row is its own parent (id 7, parent id 7). -/
def dsCycW : CustomDataset :=
  { cfg := cfgW, tokenizer := tokW, prompts := ["p"], answers := ["a"],
    parent_ids := some [some 7], ids := [7] }

/-! ### Helper lemmas -/

theorem fillLast_length {size : Nat} {fill : Int} {v out : List Int}
    (h : fillLast size fill v = some out) : out.length = size := by
  unfold fillLast at h
  split at h
  · split at h
    · cases h
      simp [*]
    · exact absurd h (by simp)
  · split at h
    · cases h
      simp
      omega
    · exact absurd h (by simp)

theorem fillLast_getLast? {size : Nat} {fill : Int} {v out : List Int}
    (h : fillLast size fill v = some out) (hv : v ≠ []) :
    out.getLast? = v.getLast? := by
  unfold fillLast at h
  split at h
  · exact absurd (List.eq_nil_of_length_eq_zero (by assumption)) hv
  · split at h
    · cases h
      rw [List.getLast?_append]
      cases hl : v.getLast? with
      | none => exact absurd (List.getLast?_eq_none_iff.mp hl) hv
      | some a => rfl
    · exact absurd h (by simp)

theorem fillLast_getD_from_end {size : Nat} {fill : Int} {v out : List Int}
    (h : fillLast size fill v = some out) {k : Nat} (hk : k < v.length)
    (d : Int) :
    out.getD (out.length - 1 - k) d = v.getD (v.length - 1 - k) d := by
  unfold fillLast at h
  split at h
  · omega
  · split at h
    · cases h
      rw [List.getD_append_right]
      · congr 1
        simp
        omega
      · simp
        omega
    · exact absurd h (by simp)

theorem pad_tokens_lengths {input_ids attention_mask : List Int}
    {max_length : Nat} {pad_token_id : Int} {out : List Int × List Int}
    (h : pad_tokens input_ids attention_mask max_length pad_token_id =
      some out) :
    out.1.length = max_length ∧ out.2.length = max_length := by
  unfold pad_tokens at h
  simp only [Option.bind_eq_some, Option.map_eq_some'] at h
  obtain ⟨a, ha, b, hb, rfl⟩ := h
  exact ⟨fillLast_length ha, fillLast_length hb⟩

theorem labelsStage_length {ds : CustomDataset}
    {samples : List (List Int × List Int)} {out : List Int}
    (h : labelsStage ds samples = some out) :
    out.length = ds.cfg.max_length := by
  unfold labelsStage at h
  simp only [Option.bind_eq_some] at h
  obtain ⟨a, -, ha⟩ := h
  split at ha <;> exact fillLast_length ha

theorem setLast_getLast? {xs out : List Int} {v : Int}
    (h : setLast xs v = some out) : out.getLast? = some v := by
  unfold setLast at h
  split at h
  · exact absurd h (by simp)
  · cases h
    exact List.getLast?_concat _

theorem setLast_length {xs out : List Int} {v : Int}
    (h : setLast xs v = some out) : out.length = xs.length := by
  unfold setLast at h
  split at h
  · exact absurd h (by simp)
  · cases h
    have hne : ¬ xs.isEmpty = true := by assumption
    simp only [List.isEmpty_iff] at hne
    have := List.length_pos.mpr hne
    simp [List.length_dropLast]
    omega

theorem setLast_getD_of_lt {xs out : List Int} {v : Int}
    (h : setLast xs v = some out) {i : Nat} (hi : i < xs.length - 1)
    (d : Int) : out.getD i d = xs.getD i d := by
  unfold setLast at h
  split at h
  · exact absurd h (by simp)
  · cases h
    have hid : i < xs.dropLast.length := by simp [List.length_dropLast]; omega
    rw [List.getD_append _ _ _ _ hid, List.getD_eq_getElem _ _ hid,
      List.getElem_dropLast, List.getD_eq_getElem]

theorem pyDrop_neg_getLast? (m : Nat) (xs : List Int) (hx : xs ≠ []) :
    (pyDrop (-(m : Int)) xs).getLast? = xs.getLast? := by
  unfold pyDrop
  rcases Nat.eq_zero_or_pos m with hm | hm
  · subst hm
    norm_num
  · have h0 : ¬ (0 : Int) ≤ -(m : Int) := by omega
    have hto : ((-(-(m : Int))).toNat) = m := by omega
    have hlp := List.length_pos.mpr hx
    rw [if_neg h0, hto, List.getLast?_drop, if_neg (by omega)]

theorem pyDrop_neg_length (m : Nat) (xs : List Int) :
    (pyDrop (-(m : Int)) xs).length =
      if m = 0 then xs.length else xs.length - (xs.length - m) := by
  unfold pyDrop
  rcases Nat.eq_zero_or_pos m with hm | hm
  · subst hm
    norm_num
  · have h0 : ¬ (0 : Int) ≤ -(m : Int) := by omega
    have hto : ((-(-(m : Int))).toNat) = m := by omega
    rw [if_neg h0, hto, if_neg (by omega : ¬ m = 0)]
    simp

theorem pyDrop_neg_getD_from_end (m : Nat) (xs : List Int) {k : Nat}
    (hk : k < (pyDrop (-(m : Int)) xs).length) (d : Int) :
    (pyDrop (-(m : Int)) xs).getD ((pyDrop (-(m : Int)) xs).length - 1 - k) d
      = xs.getD (xs.length - 1 - k) d := by
  unfold pyDrop at hk ⊢
  rcases Nat.eq_zero_or_pos m with hm | hm
  · subst hm
    norm_num
  · have h0 : ¬ (0 : Int) ≤ -(m : Int) := by omega
    have hto : ((-(-(m : Int))).toNat) = m := by omega
    rw [if_neg h0, hto] at hk ⊢
    have hL : (xs.drop (xs.length - m)).length = xs.length - (xs.length - m) := by
      simp
    have h1 : (xs.drop (xs.length - m)).length - 1 - k <
        (xs.drop (xs.length - m)).length := by omega
    have h2 : xs.length - 1 - k < xs.length := by omega
    have h3 : (xs.length - m) + ((xs.drop (xs.length - m)).length - 1 - k) <
        xs.length := by omega
    rw [List.getD_eq_getElem _ _ h1, List.getD_eq_getElem _ _ h2,
      List.getElem_drop]
    have hidx : (xs.length - m) + ((xs.drop (xs.length - m)).length - 1 - k) =
        xs.length - 1 - k := by omega
    rw [← List.getD_eq_getElem xs d h3, ← List.getD_eq_getElem xs d h2, hidx]

theorem flatPromptMask_length (samples : List (List Int × List Int)) :
    (flatPromptMask samples).length = (flatInput samples).length := by
  induction samples with
  | nil => rfl
  | cons s rest ih =>
    simp [flatPromptMask, flatInput] at ih ⊢
    omega

theorem assemble_some {ds : CustomDataset}
    {samples : List (List Int × List Int)} {s : SampleDict}
    (h : assemble ds samples = some s) :
    ∃ pl out pout,
      labelsStage ds samples = some pl ∧
      pad_tokens (flatInput samples)
        ((flatInput samples).map (fun _ => (1 : Int))) ds.cfg.max_length
        ds.tokenizer.pad_token_id = some out ∧
      pad_tokens (flatInput (promptSamples samples))
        ((flatInput (promptSamples samples)).map (fun _ => (1 : Int)))
        ds.cfg.max_length_prompt ds.tokenizer.pad_token_id = some pout ∧
      s = { labels := pl, input_ids := out.1, attention_mask := out.2,
            prompt_input_ids := pout.1, prompt_attention_mask := pout.2 } := by
  unfold assemble at h
  simp only [Option.bind_eq_some, Option.map_eq_some'] at h
  obtain ⟨pl, hpl, out, hout, pout, hpout, hs⟩ := h
  exact ⟨pl, out, pout, hpl, hout, hpout, hs.symm⟩

theorem _read_data_some {ds : CustomDataset} {mode : Mode} {rng : RNG}
    {fuel idx : Nat} {s : SampleDict}
    (h : _read_data ds mode rng fuel idx = some s) :
    ∃ samples, buildSamples ds mode rng fuel idx = some samples ∧
      assemble ds samples = some s := by
  unfold _read_data at h
  exact Option.bind_eq_some.mp h

theorem buildSamples_getLast? {ds : CustomDataset} {mode : Mode} {rng : RNG}
    {fuel idx : Nat} {samples : List (List Int × List Int)}
    (h : buildSamples ds mode rng fuel idx = some samples) :
    samples.getLast? = some (_get_sample ds idx) := by
  unfold buildSamples at h
  rw [Option.bind_eq_some] at h
  obtain ⟨ak, -, hs⟩ := h
  split at hs
  · rw [Option.some.injEq] at hs
    rw [← hs]
    rw [show _get_sample ds rng.randint ::
        (ak.1.reverse.map (_get_sample ds) ++ [_get_sample ds idx]) =
        (_get_sample ds rng.randint :: ak.1.reverse.map (_get_sample ds)) ++
          [_get_sample ds idx] from rfl]
    exact List.getLast?_concat _
  · rw [Option.some.injEq] at hs
    rw [← hs]
    exact List.getLast?_concat _

theorem map_const_false_getLast? {a : List Int} (ha : a ≠ []) :
    (a.map (fun _ => false)).getLast? = some false := by
  rw [List.getLast?_map]
  cases hl : a.getLast? with
  | none => exact absurd (List.getLast?_eq_none_iff.mp hl) ha
  | some x => rfl

theorem flatPromptMask_getLast?_false {samples : List (List Int × List Int)}
    {p a : List Int} (h : samples.getLast? = some (p, a)) (ha : a ≠ []) :
    (flatPromptMask samples).getLast? = some false := by
  obtain ⟨ys, rfl⟩ := List.getLast?_eq_some_iff.mp h
  unfold flatPromptMask
  rw [List.flatMap_append]
  rw [List.getLast?_append]
  have h1 : ([((p, a) : List Int × List Int)].flatMap
      (fun s => s.1.map (fun _ => true) ++ s.2.map (fun _ => false))) =
      p.map (fun _ => true) ++ a.map (fun _ => false) := by simp
  rw [h1, List.getLast?_append, map_const_false_getLast? ha]
  rfl

theorem _get_sample_answer_ne_nil {ds : CustomDataset}
    (he : ds.cfg.add_eos_token_to_answer = true) (idx : Nat) :
    (_get_sample ds idx).2 ≠ [] := by
  simp [_get_sample, he]

theorem labelsStage_getLast?_eos {ds : CustomDataset}
    {samples : List (List Int × List Int)} {pl : List Int}
    (he : ds.cfg.add_eos_token_to_answer = true)
    (h : labelsStage ds samples = some pl) :
    pl.getLast? = some ds.tokenizer.eos_token_id := by
  unfold labelsStage at h
  simp only [Option.bind_eq_some] at h
  obtain ⟨l2, hsl, hfill⟩ := h
  rw [if_pos he] at hsl
  have hl2 : l2.getLast? = some ds.tokenizer.eos_token_id :=
    setLast_getLast? hsl
  have hl2ne : l2 ≠ [] := by
    intro hnil
    rw [hnil] at hl2
    exact absurd hl2 (by simp)
  split at hfill
  · have h3 := pyDrop_neg_getLast? ds.cfg.max_length l2 hl2ne
    have h3ne : pyDrop (-(ds.cfg.max_length : Int)) l2 ≠ [] := by
      intro hnil
      rw [hnil] at h3
      rw [← h3] at hl2
      exact absurd hl2.symm (by simp)
    rw [fillLast_getLast? hfill h3ne, h3, hl2]
  · rw [fillLast_getLast? hfill hl2ne, hl2]

theorem zipWith_mask_getD {M : List Bool} {L0 : List Int} {i : Nat}
    (hlen : M.length = L0.length) (hi : i < L0.length)
    (hM : M.getD i false = true) :
    (List.zipWith (fun m v => if m then (-100 : Int) else v) M L0).getD i 0 =
      -100 := by
  have hz : i <
      (List.zipWith (fun m v => if m then (-100 : Int) else v) M L0).length := by
    rw [List.length_zipWith]
    omega
  rw [List.getD_eq_getElem _ _ hz, List.getElem_zipWith,
    ← List.getD_eq_getElem M false (show i < M.length by omega), hM]
  simp

theorem getLast?_eq_getD_last {M : List Bool} (hne : M ≠ []) :
    M.getLast? = some (M.getD (M.length - 1) false) := by
  have hl : M.length - 1 < M.length := by
    have := List.length_pos.mpr hne
    omega
  rw [List.getLast?_eq_getElem?, List.getElem?_eq_getElem hl,
    List.getD_eq_getElem _ _ hl]

theorem labelsStage_masked_getD {ds : CustomDataset}
    {samples : List (List Int × List Int)} {pl : List Int}
    (hm : ds.cfg.mask_prompt_labels = true)
    (h : labelsStage ds samples = some pl)
    (hlast : ds.cfg.add_eos_token_to_answer = true →
      (flatPromptMask samples).getLast? = some false)
    {k : Nat}
    (hk : k < min (flatInput samples).length ds.cfg.max_length)
    (hp : (flatPromptMask samples).getD
      ((flatPromptMask samples).length - 1 - k) false = true) :
    pl.getD (ds.cfg.max_length - 1 - k) 0 = -100 := by
  have hML : (flatPromptMask samples).length = (flatInput samples).length :=
    flatPromptMask_length samples
  have hkL : k < (flatInput samples).length := lt_of_lt_of_le hk (min_le_left _ _)
  have hkm : k < ds.cfg.max_length := lt_of_lt_of_le hk (min_le_right _ _)
  unfold labelsStage at h
  simp only [Option.bind_eq_some] at h
  obtain ⟨l2, hsl, hfill⟩ := h
  rw [if_pos hm] at hsl
  set L := (flatInput samples).length with hLdef
  set M := flatPromptMask samples with hMdef
  set labels1 :=
    List.zipWith (fun m v => if m then (-100 : Int) else v) M
      (flatInput samples) with hl1def
  have hl1len : labels1.length = L := by
    rw [hl1def, List.length_zipWith]
    omega
  have hl1val : labels1.getD (L - 1 - k) 0 = -100 :=
    zipWith_mask_getD hML (by omega) (by rw [← hML] at hkL ⊢; exact hp)
  have hstep : l2.length = L ∧ l2.getD (L - 1 - k) 0 = -100 := by
    by_cases he : ds.cfg.add_eos_token_to_answer = true
    · rw [if_pos he] at hsl
      rcases Nat.eq_zero_or_pos k with hk0 | hkpos
      · exfalso
        have hMne : M ≠ [] := by
          intro hnil
          rw [hnil] at hML
          simp at hML
          omega
        have := getLast?_eq_getD_last hMne
        rw [hlast he] at this
        subst hk0
        simp only [Nat.sub_zero] at hp
        rw [hp] at this
        exact Bool.false_ne_true (Option.some.inj this)
      · constructor
        · rw [setLast_length hsl, hl1len]
        · rw [setLast_getD_of_lt hsl (by omega : L - 1 - k < labels1.length - 1)]
          exact hl1val
    · rw [if_neg he, Option.some.injEq] at hsl
      rw [← hsl]
      exact ⟨hl1len, hl1val⟩
  obtain ⟨hl2len, hl2val⟩ := hstep
  have hplen : pl.length = ds.cfg.max_length := by
    split at hfill <;> exact fillLast_length hfill
  split at hfill
  · rename_i htr
    have hl3len : (pyDrop (-(ds.cfg.max_length : Int)) l2).length =
        ds.cfg.max_length := by
      rw [pyDrop_neg_length, if_neg (by omega : ¬ ds.cfg.max_length = 0)]
      omega
    have h1 := fillLast_getD_from_end hfill (by omega :
      k < (pyDrop (-(ds.cfg.max_length : Int)) l2).length) (0 : Int)
    have h2 := pyDrop_neg_getD_from_end ds.cfg.max_length l2 (by omega :
      k < (pyDrop (-(ds.cfg.max_length : Int)) l2).length) (0 : Int)
    rw [hplen] at h1
    rw [h1, h2, hl2len, hl2val]
  · have h1 := fillLast_getD_from_end hfill (by omega : k < l2.length) (0 : Int)
    rw [hplen] at h1
    rw [h1, hl2len, hl2val]

theorem chainLoop_succ (parentOf : Nat → Option Nat) (isTrain : Bool)
    (sp : ℚ) (u : Nat → ℚ) (fuel k cur : Nat) :
    chainLoop parentOf isTrain sp u (fuel + 1) k cur =
      match parentOf cur with
      | none => some ([], k)
      | some p =>
        if isTrain ∧ u k < sp then some ([], k + 1)
        else
          match chainLoop parentOf isTrain sp u fuel
              (if isTrain then k + 1 else k) p with
          | none => none
          | some (rest, k2) => some (p :: rest, k2) := rfl

theorem chainLoop_terminates (f : Nat → Option Nat) (sp : ℚ) (u : Nat → ℚ) :
    ∀ n k idx, stepN f n idx = none →
      (chainLoop f false sp u n k idx).isSome = true := by
  intro n
  induction n with
  | zero => intro k idx h; simp [stepN] at h
  | succ n ih =>
    intro k idx h
    cases hf : f idx with
    | none => simp [chainLoop_succ, hf]
    | some p =>
      have hp : stepN f n p = none := by
        rw [stepN, hf] at h
        exact h
      have := ih k p hp
      rw [Option.isSome_iff_exists] at this
      obtain ⟨r, hr⟩ := this
      rw [chainLoop_succ, hf]
      simp only [Bool.false_eq_true, false_and, if_false]
      rw [hr]
      cases r with
      | mk rest k2 => simp

theorem chainLoop_some_stepN (f : Nat → Option Nat) (sp : ℚ) (u : Nat → ℚ) :
    ∀ fuel k idx r, chainLoop f false sp u fuel k idx = some r →
      ∃ n, stepN f n idx = none := by
  intro fuel
  induction fuel with
  | zero => intro k idx r h; simp [chainLoop] at h
  | succ fuel ih =>
    intro k idx r h
    cases hf : f idx with
    | none => exact ⟨1, by simp [stepN, hf]⟩
    | some p =>
      rw [chainLoop_succ, hf] at h
      simp only [Bool.false_eq_true, false_and, if_false] at h
      cases hcl : chainLoop f false sp u fuel k p with
      | none => rw [hcl] at h; simp at h
      | some q =>
        obtain ⟨n, hn⟩ := ih k p q hcl
        exact ⟨n + 1, by rw [stepN, hf]; exact hn⟩

theorem stepN_add (f : Nat → Option Nat) (a b i : Nat) :
    stepN f (a + b) i = (stepN f a i).bind (stepN f b) := by
  induction a generalizing i with
  | zero => simp [stepN]
  | succ a ih =>
    rw [show a + 1 + b = (a + b) + 1 by omega, stepN, stepN]
    cases hf : f i with
    | none => simp
    | some p => simp [ih p]

theorem stepN_cycle_reaches (f : Nat → Option Nat) {idx m p c : Nat}
    (h1 : stepN f m idx = some p) (hc : 0 < c)
    (h2 : stepN f c p = some p) :
    ∀ j, stepN f (m + j * c) idx = some p := by
  intro j
  induction j with
  | zero => simpa using h1
  | succ j ih =>
    rw [show m + (j + 1) * c = (m + j * c) + c by ring, stepN_add, ih]
    simpa using h2

theorem stepN_cycle_never_none (f : Nat → Option Nat) {idx m p c : Nat}
    (h1 : stepN f m idx = some p) (hc : 0 < c)
    (h2 : stepN f c p = some p) :
    ∀ n, stepN f n idx ≠ none := by
  intro n hnone
  have hN : n ≤ m + n * c := by
    have : n ≤ n * c := Nat.le_mul_of_pos_right n hc
    omega
  have hsome := stepN_cycle_reaches f h1 hc h2 n
  rw [show m + n * c = n + (m + n * c - n) by omega, stepN_add, hnone] at hsome
  simp at hsome

theorem chainLoop_valid_indep (f : Nat → Option Nat) (sp : ℚ)
    (u1 u2 : Nat → ℚ) :
    ∀ fuel k idx, chainLoop f false sp u1 fuel k idx =
      chainLoop f false sp u2 fuel k idx := by
  intro fuel
  induction fuel with
  | zero => intro k idx; rfl
  | succ fuel ih =>
    intro k idx
    rw [chainLoop_succ, chainLoop_succ]
    cases hf : f idx with
    | none => rfl
    | some p =>
      simp only [Bool.false_eq_true, false_and, if_false]
      rw [ih]

/-! ### Claim theorems -/

/-- C3: for every dataset item built with `add_eos_token_to_answer` enabled,
the final position of the returned labels tensor equals the tokenizer's
end-of-sequence id — including when the pad id equals the eos id and when
prompt-label masking or truncation to `max_length` has been applied. -/
theorem C3_eos_last_label (ds : CustomDataset) (mode : Mode) (rng : RNG)
    (fuel idx : Nat) (s : SampleDict)
    (he : ds.cfg.add_eos_token_to_answer = true)
    (h : _read_data ds mode rng fuel idx = some s) :
    s.labels.getLast? = some ds.tokenizer.eos_token_id := by
  obtain ⟨samples, -, ha⟩ := _read_data_some h
  obtain ⟨pl, out, pout, hpl, -, -, rfl⟩ := assemble_some ha
  exact labelsStage_getLast?_eos he hpl

theorem C3_eos_last_label_witness :
    dsW.cfg.add_eos_token_to_answer = true ∧
    _read_data dsW Mode.validation rngW 1 0 = some sdW ∧
    sdW.labels.getLast? = some dsW.tokenizer.eos_token_id :=
  ⟨rfl, by decide,
    C3_eos_last_label dsW Mode.validation rngW 1 0 sdW rfl (by decide)⟩

/-- C4: for every dataset item built with `mask_prompt_labels` enabled, every
position of the returned labels tensor that corresponds to a prompt-token
position of the flat sequence (`prompt_mask` true) holds the ignore sentinel
`-100`, except positions dropped by truncation to the trailing `max_length`
tokens.  Positions are counted from the end (`k` positions before the last),
so that a flat position survives truncation iff `k < min L max_length`. -/
theorem C4_prompt_mask_ignore (ds : CustomDataset) (mode : Mode) (rng : RNG)
    (fuel idx : Nat) (samples : List (List Int × List Int)) (s : SampleDict)
    (hm : ds.cfg.mask_prompt_labels = true)
    (hb : buildSamples ds mode rng fuel idx = some samples)
    (hr : _read_data ds mode rng fuel idx = some s)
    (k : Nat) (hk : k < min (flatInput samples).length ds.cfg.max_length)
    (hp : (flatPromptMask samples).getD
      ((flatPromptMask samples).length - 1 - k) false = true) :
    s.labels.getD (ds.cfg.max_length - 1 - k) 0 = -100 := by
  obtain ⟨samples', hb', ha⟩ := _read_data_some hr
  rw [hb] at hb'
  cases Option.some.inj hb'
  obtain ⟨pl, out, pout, hpl, -, -, rfl⟩ := assemble_some ha
  refine labelsStage_masked_getD hm hpl ?_ hk hp
  intro he
  exact flatPromptMask_getLast?_false (buildSamples_getLast? hb)
    (_get_sample_answer_ne_nil he idx)

theorem C4_prompt_mask_ignore_witness :
    dsW.cfg.mask_prompt_labels = true ∧
    buildSamples dsW Mode.validation rngW 1 0 = some samplesW ∧
    _read_data dsW Mode.validation rngW 1 0 = some sdW ∧
    2 < min (flatInput samplesW).length dsW.cfg.max_length ∧
    (flatPromptMask samplesW).getD
      ((flatPromptMask samplesW).length - 1 - 2) false = true ∧
    sdW.labels.getD (dsW.cfg.max_length - 1 - 2) 0 = -100 :=
  ⟨rfl, by decide, by decide, by decide, by decide,
    C4_prompt_mask_ignore dsW Mode.validation rngW 1 0 samplesW sdW rfl
      (by decide) (by decide) 2 (by decide) (by decide)⟩

/-- C5: every item returned by `__getitem__` has `input_ids`,
`attention_mask` and `labels` of length exactly `max_length`, and
`prompt_input_ids` / `prompt_attention_mask` of length exactly
`max_length_prompt`. -/
theorem C5_padding_lengths (ds : CustomDataset) (mode : Mode) (rng : RNG)
    (fuel idx : Nat) (s : SampleDict)
    (h : _read_data ds mode rng fuel idx = some s) :
    s.input_ids.length = ds.cfg.max_length ∧
    s.attention_mask.length = ds.cfg.max_length ∧
    s.labels.length = ds.cfg.max_length ∧
    s.prompt_input_ids.length = ds.cfg.max_length_prompt ∧
    s.prompt_attention_mask.length = ds.cfg.max_length_prompt := by
  obtain ⟨samples, -, ha⟩ := _read_data_some h
  obtain ⟨pl, out, pout, hpl, hout, hpout, rfl⟩ := assemble_some ha
  obtain ⟨h1, h2⟩ := pad_tokens_lengths hout
  obtain ⟨h3, h4⟩ := pad_tokens_lengths hpout
  exact ⟨h1, h2, labelsStage_length hpl, h3, h4⟩

theorem C5_padding_lengths_witness :
    _read_data dsW Mode.validation rngW 1 0 = some sdW ∧
    sdW.input_ids.length = dsW.cfg.max_length ∧
    sdW.labels.length = dsW.cfg.max_length :=
  ⟨by decide,
    (C5_padding_lengths dsW Mode.validation rngW 1 0 sdW (by decide)).1,
    (C5_padding_lengths dsW Mode.validation rngW 1 0 sdW (by decide)).2.2.1⟩

/-- C6: instantiated at validation mode (`decide (validation = train) =
false`, so no stochastic early stop): (1) if iterating the backward parent
lookup from `idx` reaches a missing parent within `n` steps, the walk of
`_read_data` terminates with fuel `n`; (2) if the chain reached from `idx`
hits a cycle (a row `p` reachable from `idx` with `stepN f c p = some p`,
`c > 0`), the walk never terminates: for every fuel it is still running. -/
theorem C6_parent_walk_termination (ds : CustomDataset) (u : Nat → ℚ)
    (idx : Nat) :
    (∀ n, stepN (parentLookup ds) n idx = none →
      (chainLoop (parentLookup ds) (decide (Mode.validation = Mode.train))
        ds.cfg.skip_parent_probability u n 0 idx).isSome = true) ∧
    (∀ m p c fuel k, stepN (parentLookup ds) m idx = some p → 0 < c →
      stepN (parentLookup ds) c p = some p →
      chainLoop (parentLookup ds) (decide (Mode.validation = Mode.train))
        ds.cfg.skip_parent_probability u fuel k idx = none) := by
  constructor
  · intro n h
    exact chainLoop_terminates (parentLookup ds)
      ds.cfg.skip_parent_probability u n 0 idx h
  · intro m p c fuel k h1 hc h2
    cases hcl : chainLoop (parentLookup ds) false
        ds.cfg.skip_parent_probability u fuel k idx with
    | none => exact hcl
    | some r =>
      obtain ⟨n, hn⟩ := chainLoop_some_stepN (parentLookup ds)
        ds.cfg.skip_parent_probability u fuel k idx r hcl
      exact absurd hn (stepN_cycle_never_none (parentLookup ds) h1 hc h2 n)

theorem C6_parent_walk_termination_witness :
    stepN (parentLookup dsC1W) 3 2 = none ∧
    (chainLoop (parentLookup dsC1W) (decide (Mode.validation = Mode.train))
      dsC1W.cfg.skip_parent_probability rngW.uniforms 3 0 2).isSome = true ∧
    stepN (parentLookup dsCycW) 0 0 = some 0 ∧
    stepN (parentLookup dsCycW) 1 0 = some 0 ∧
    chainLoop (parentLookup dsCycW) (decide (Mode.validation = Mode.train))
      dsCycW.cfg.skip_parent_probability rngW.uniforms 7 0 0 = none :=
  ⟨by decide,
    (C6_parent_walk_termination dsC1W rngW.uniforms 2).1 3 (by decide),
    by decide, by decide,
    (C6_parent_walk_termination dsCycW rngW.uniforms 0).2 0 0 1 7 0
      (by decide) (by decide) (by decide)⟩

/-- C10: in validation mode item construction is deterministic — the random
source is never consulted, so `_read_data` yields the same result for any
two random streams. -/
theorem C10_validation_deterministic (ds : CustomDataset) (rng1 rng2 : RNG)
    (fuel idx : Nat) :
    _read_data ds Mode.validation rng1 fuel idx =
      _read_data ds Mode.validation rng2 fuel idx := by
  unfold _read_data
  have hbs : buildSamples ds Mode.validation rng1 fuel idx =
      buildSamples ds Mode.validation rng2 fuel idx := by
    unfold buildSamples
    cases hpid : ds.parent_ids with
    | none => simp [hpid]
    | some ps =>
      simp only [hpid]
      rw [show decide (Mode.validation = Mode.train) = false from rfl,
        chainLoop_valid_indep (parentLookup ds) ds.cfg.skip_parent_probability
          rng1.uniforms rng2.uniforms fuel 0 idx]
      cases hcl : chainLoop (parentLookup ds) false
          ds.cfg.skip_parent_probability rng2.uniforms fuel 0 idx with
      | none => rfl
      | some ak => simp
  rw [hbs]

/-- C1: for the three-row dataset A (no parent), B (parent A), C (parent B)
with parent chaining enabled and both probabilities 0 (and every uniform
draw nonnegative, as `np.random.random()` is), the unpadded flat input-id
sequence `_read_data` assembles for C's index 2 is
`encode(A) ++ encode(B) ++ encode(C)` in ancestor-to-descendant order. -/
theorem C1_chain_ordering (tok : Tokenizer) (cfg : DatasetCfg)
    (pA pB pC aA aB aC : String) (mode : Mode) (rng : RNG) (fuel : Nat)
    (hskip : cfg.skip_parent_probability = 0)
    (hrand : cfg.random_parent_probability = 0)
    (hu : ∀ k, 0 ≤ rng.uniforms k) (hfuel : 3 ≤ fuel) :
    (buildSamples (dsChain tok cfg pA pB pC aA aB aC) mode rng fuel 2).map
        flatInput =
      some (encodeRow (dsChain tok cfg pA pB pC aA aB aC) 0 ++
        encodeRow (dsChain tok cfg pA pB pC aA aB aC) 1 ++
        encodeRow (dsChain tok cfg pA pB pC aA aB aC) 2) := by
  obtain ⟨f, rfl⟩ : ∃ f, fuel = f + 3 := ⟨fuel - 3, by omega⟩
  have hnc : ∀ k, ¬ (rng.uniforms k < cfg.skip_parent_probability) := by
    intro k
    rw [hskip]
    exact not_lt.mpr (hu k)
  have hnr : ∀ k, ¬ (rng.uniforms k < cfg.random_parent_probability) := by
    intro k
    rw [hrand]
    exact not_lt.mpr (hu k)
  have hp2 : parentLookup (dsChain tok cfg pA pB pC aA aB aC) 2 = some 1 := rfl
  have hp1 : parentLookup (dsChain tok cfg pA pB pC aA aB aC) 1 = some 0 := rfl
  have hp0 : parentLookup (dsChain tok cfg pA pB pC aA aB aC) 0 = none := rfl
  have hchain : ∀ b : Bool,
      chainLoop (parentLookup (dsChain tok cfg pA pB pC aA aB aC)) b
        cfg.skip_parent_probability rng.uniforms (f + 3) 0 2 =
      some ([1, 0], if b then 2 else 0) := by
    intro b
    rw [show f + 3 = (f + 2) + 1 from rfl, chainLoop_succ, hp2]
    dsimp only
    rw [if_neg (fun hc => hnc 0 hc.2)]
    rw [show f + 2 = (f + 1) + 1 from rfl, chainLoop_succ, hp1]
    dsimp only
    rw [if_neg (fun hc => hnc _ hc.2)]
    rw [show f + 1 = f + 1 from rfl, chainLoop_succ, hp0]
    cases b <;> simp
  have hpids : (dsChain tok cfg pA pB pC aA aB aC).parent_ids =
      some [none, some 10, some 20] := rfl
  have hds : (dsChain tok cfg pA pB pC aA aB aC).cfg = cfg := rfl
  simp only [buildSamples, hpids, hds]
  rw [hchain (decide (mode = Mode.train))]
  rw [Option.some_bind]
  dsimp only
  rw [if_neg (fun hc => hnr _ hc.2)]
  simp [flatInput, encodeRow, List.append_assoc]

theorem C1_chain_ordering_witness :
    cfgW.skip_parent_probability = 0 ∧
    cfgW.random_parent_probability = 0 ∧
    (buildSamples (dsChain tokW cfgW "pa" "pb" "pc" "x" "y" "z") Mode.train
        rngW 5 2).map flatInput =
      some (encodeRow (dsChain tokW cfgW "pa" "pb" "pc" "x" "y" "z") 0 ++
        encodeRow (dsChain tokW cfgW "pa" "pb" "pc" "x" "y" "z") 1 ++
        encodeRow (dsChain tokW cfgW "pa" "pb" "pc" "x" "y" "z") 2) :=
  ⟨rfl, rfl,
    C1_chain_ordering tokW cfgW "pa" "pb" "pc" "x" "y" "z" Mode.train rngW 5
      rfl rfl (fun k => le_refl 0) (by omega)⟩

theorem zipWith_sub_getD (xs ys : List ℝ) (h : ys.length = xs.length) :
    List.zipWith (fun a b => a - b) xs ys =
      (List.range xs.length).map (fun i => xs.getD i 0 - ys.getD i 0) := by
  apply List.ext_getElem
  · simp [List.length_zipWith, h]
  · intro i h1 h2
    have hx : i < xs.length := by
      rw [List.length_zipWith] at h1
      omega
    have hy : i < ys.length := by omega
    rw [List.getElem_zipWith, List.getElem_map, List.getElem_range,
      List.getD_eq_getElem xs 0 hx, List.getD_eq_getElem ys 0 hy]

/-- C2: for equal-length log-probability vectors and positive `beta`, the
loss family returns the unweighted mean over examples of the variant loss of
`logits = (pc - pr) - (rc - rr)`, together with the mean chosen reward
`beta * (pc - rc)` and mean rejected reward `beta * (pr - rr)`; the variants
satisfy sigmoid `= -logsigmoid (beta * logits)` (smoothing fixed at 0),
hinge `= relu (1 - beta * logits)`, squared `= (logits - 1/(2*beta))^2`;
and at `[-1], [-2], [-1.5], [-2.5]` with `beta = 0.1` the logits are `[0]`
and the three losses are `ln 2`, `1` and `25`. -/
theorem C2_dpo_loss_family (kind : LossKind) (beta : ℝ)
    (pc pr rc rr : List ℝ) (hbeta : 0 < beta)
    (h1 : pr.length = pc.length) (h2 : rc.length = pc.length)
    (h3 : rr.length = pc.length) :
    dpoForward kind beta pc pr rc rr =
      (tmean ((List.range pc.length).map (fun i =>
          get_losses kind beta
            ((pc.getD i 0 - pr.getD i 0) - (rc.getD i 0 - rr.getD i 0)))),
       tmean ((List.range pc.length).map (fun i =>
          beta * (pc.getD i 0 - rc.getD i 0))),
       tmean ((List.range pc.length).map (fun i =>
          beta * (pr.getD i 0 - rr.getD i 0)))) ∧
    (∀ l : ℝ,
      get_losses LossKind.DPOLoss beta l = -logsigmoid (beta * l) ∧
      get_losses LossKind.HingeLoss beta l = max 0 (1 - beta * l) ∧
      get_losses LossKind.IPOLoss beta l = (l - 1 / (2 * beta)) ^ 2) ∧
    List.zipWith (fun a b => a - b)
        (List.zipWith (fun a b => a - b) [(-1 : ℝ)] [(-2 : ℝ)])
        (List.zipWith (fun a b => a - b) [(-1.5 : ℝ)] [(-2.5 : ℝ)]) = [0] ∧
    (dpoForward LossKind.DPOLoss 0.1 [-1] [-2] [-1.5] [-2.5]).1 =
      Real.log 2 ∧
    (dpoForward LossKind.HingeLoss 0.1 [-1] [-2] [-1.5] [-2.5]).1 = 1 ∧
    (dpoForward LossKind.IPOLoss 0.1 [-1] [-2] [-1.5] [-2.5]).1 = 25 := by
  refine ⟨?_, ?_, ?_, ?_, ?_, ?_⟩
  · have hlog : List.zipWith (fun a b => a - b)
        (List.zipWith (fun a b => a - b) pc pr)
        (List.zipWith (fun a b => a - b) rc rr) =
        (List.range pc.length).map (fun i =>
          (pc.getD i 0 - pr.getD i 0) - (rc.getD i 0 - rr.getD i 0)) := by
      apply List.ext_getElem
      · simp [List.length_zipWith, h1, h2, h3]
      · intro i ha hb
        have hx : i < pc.length := by
          simp [List.length_zipWith, h1, h2, h3] at ha
          omega
        rw [List.getElem_zipWith, List.getElem_zipWith, List.getElem_zipWith,
          List.getElem_map, List.getElem_range,
          List.getD_eq_getElem pc 0 hx, List.getD_eq_getElem pr 0 (by omega),
          List.getD_eq_getElem rc 0 (by omega),
          List.getD_eq_getElem rr 0 (by omega)]
    unfold dpoForward
    dsimp only
    rw [hlog, zipWith_sub_getD pc rc h2, zipWith_sub_getD pr rr (by omega),
      h1, List.map_map, List.map_map, List.map_map]
    rfl
  · intro l
    refine ⟨?_, rfl, rfl⟩
    show -logsigmoid (beta * l) * (1 - 0) - logsigmoid (-(beta * l)) * 0 = _
    ring
  · simp only [List.zipWith_cons_cons, List.zipWith_nil_right]
    norm_num
  · unfold dpoForward tmean get_losses
    simp only [List.zipWith_cons_cons, List.zipWith_nil_right, List.map_cons,
      List.map_nil, List.sum_cons, List.sum_nil, List.length_cons,
      List.length_nil]
    rw [show (-1 : ℝ) - -2 - (-1.5 - -2.5) = 0 by norm_num]
    rw [show (0.1 : ℝ) * 0 = 0 by norm_num]
    unfold logsigmoid
    rw [neg_zero, Real.exp_zero, show (1 : ℝ) + 1 = 2 by norm_num, one_div,
      Real.log_inv]
    push_cast
    ring
  · unfold dpoForward tmean get_losses
    simp only [List.zipWith_cons_cons, List.zipWith_nil_right, List.map_cons,
      List.map_nil, List.sum_cons, List.sum_nil, List.length_cons,
      List.length_nil]
    norm_num
  · unfold dpoForward tmean get_losses
    simp only [List.zipWith_cons_cons, List.zipWith_nil_right, List.map_cons,
      List.map_nil, List.sum_cons, List.sum_nil, List.length_cons,
      List.length_nil]
    norm_num

theorem C2_dpo_loss_family_witness :
    ((0 : ℝ) < 0.1) ∧ ([(-2 : ℝ)].length = [(-1 : ℝ)].length) ∧
    (dpoForward LossKind.DPOLoss 0.1 [-1] [-2] [-1.5] [-2.5]).1 =
      Real.log 2 :=
  ⟨by norm_num, rfl,
    (C2_dpo_loss_family LossKind.DPOLoss 0.1 [-1] [-2] [-1.5] [-2.5]
      (by norm_num) rfl rfl rfl).2.2.2.1⟩

/-- C7 (code divergence): with the unknown-token and mask-token ids absent
and the pad-token id present (id 5, vocabulary size 10), `get_tokenizer`
resolves the mask-token id to `len(tokenizer) - 1 = 9`, not to the pad id 5:
the third branch of the source repeats the second branch's condition
(`elif tokenizer.mask_token_id is not None`), so the pad fallback the spec
describes is dead code. -/
theorem C7_mask_token_pad_fallback_dead :
    resolveMaskTokenId
      { unk_token_id := none, mask_token_id := none, pad_token_id := some 5,
        vocab_size := 10 } = some 9 ∧ (9 : Int) ≠ 5 := by
  constructor
  · rfl
  · decide

/-- C8: the factory `Losses.get` returns the default `DPOLoss` for every unregistered
name (rather than raising or returning nothing — the function is total into
`LossKind`), and the registered class for each registered name. -/
theorem C8_losses_get_fallback (name : String)
    (h : name ∉ ["DPOLoss", "HingeLoss", "IPOLoss"]) :
    Losses.get name = LossKind.DPOLoss ∧
    Losses.get "DPOLoss" = LossKind.DPOLoss ∧
    Losses.get "HingeLoss" = LossKind.HingeLoss ∧
    Losses.get "IPOLoss" = LossKind.IPOLoss := by
  refine ⟨?_, rfl, rfl, rfl⟩
  simp only [List.mem_cons, List.not_mem_nil, or_false, not_or] at h
  obtain ⟨hd, hh, hi⟩ := h
  unfold Losses.get lossesRegistry
  simp only [List.lookup]
  rw [show (name == "DPOLoss") = false from beq_eq_false_iff_ne.mpr hd,
    show (name == "HingeLoss") = false from beq_eq_false_iff_ne.mpr hh,
    show (name == "IPOLoss") = false from beq_eq_false_iff_ne.mpr hi]
  rfl

theorem C8_losses_get_fallback_witness :
    ("FocalLoss" ∉ ["DPOLoss", "HingeLoss", "IPOLoss"]) ∧
    Losses.get "FocalLoss" = LossKind.DPOLoss :=
  ⟨by decide, (C8_losses_get_fallback "FocalLoss" (by decide)).1⟩

/-- C9: dataset construction raises if and only if the configured answer
column is absent from the input table or contains missing values; when it
succeeds, the stored answers cover every row, so no per-item access can fail
on this condition. -/
theorem C9_answer_column_validation (df : DataFrame) (c : String) :
    ((∃ e, datasetInitAnswers df c = Except.error e) ↔
      (¬ df.columns.contains c ∨
        ∃ v ∈ df.values c, v = none)) ∧
    (∀ answers, datasetInitAnswers df c = Except.ok answers →
      answers.length = (df.values c).length) := by
  have hunfold : datasetInitAnswers df c =
      if (!(df.columns.contains c) ||
          ((df.columns.contains c) &&
            (df.values c).any (fun v => v.isNone))) then
        Except.error
          (if ((df.columns.contains c) &&
              (df.values c).any (fun v => v.isNone)) then
            "column contains missing values"
          else "does not contain the required column")
      else Except.ok ((df.values c).map (fun v => v.getD "")) := rfl
  constructor
  · rw [hunfold]
    cases ha : df.columns.contains c with
    | false =>
      simp only [Bool.not_false, Bool.false_and, Bool.true_or, if_true]
      exact iff_of_true ⟨_, rfl⟩ (Or.inl (by simp))
    | true =>
      cases hb : (df.values c).any (fun v => v.isNone) with
      | true =>
        simp only [Bool.not_true, Bool.true_and, Bool.false_or, if_true]
        refine iff_of_true ⟨_, rfl⟩ (Or.inr ?_)
        obtain ⟨v, hv, hvn⟩ := List.any_eq_true.mp hb
        exact ⟨v, hv, Option.isNone_iff_eq_none.mp hvn⟩
      | false =>
        simp only [Bool.not_true, Bool.true_and, Bool.false_or,
          Bool.false_eq_true, if_false]
        refine iff_of_false ?_ ?_
        · rintro ⟨e, he⟩
          exact absurd he (by simp)
        · rintro (hcc | ⟨v, hv, hvn⟩)
          · exact hcc trivial
          · have hany : (df.values c).any (fun v => v.isNone) = true :=
              List.any_eq_true.mpr ⟨v, hv, Option.isNone_iff_eq_none.mpr hvn⟩
            rw [hb] at hany
            exact Bool.false_ne_true hany
  · intro answers hok
    rw [hunfold] at hok
    split at hok
    · exact absurd hok (by simp)
    · rw [← Except.ok.inj hok]
      simp

theorem C9_answer_column_validation_witness :
    datasetInitAnswers dfW "answer" = Except.ok ["x", "y"] ∧
    (["x", "y"] : List String).length = (dfW.values "answer").length :=
  ⟨rfl, (C9_answer_column_validation dfW "answer").2 ["x", "y"] rfl⟩

end H2OEve
